import Mathlib

/-!
Verification of the CourtBook booking platform against its natural-language
specification.  The repository ships the React/TypeScript web client
(web/src) together with the specification of the admission-control and
fair-allocation engine; the client code is embedded directly, and the
engine components that the specification describes but that are not yet
present in the source tree are modelled from the specification's words,
each such definition marked in its doc comment.
-/

set_option autoImplicit false

namespace CourtBook

/-! ## Availability page: slot model and canBook (src/web AvailabilityPage) -/

/-- One availability slot as delivered by the API (types/api.ts, Slot). -/
structure Slot where
  start_time : String
  end_time : String
  is_available : Bool
deriving DecidableEq, Repr

/-- Embedding of canBook from AvailabilityPage: a slot can start a booking of
the selected duration when it is itself available and, for a two-hour
booking, the next slot exists and is available too.  An out-of-range index
is outside the behaviour the page exercises and yields false here. -/
def canBook (slots : List Slot) (duration : Nat) (slotIndex : Nat) : Bool :=
  match slots[slotIndex]? with
  | none => false
  | some s =>
    if !s.is_available then false
    else if duration ≤ 60 then true
    else decide (slotIndex + 1 < slots.length) &&
      (match slots[slotIndex + 1]? with
       | some t => t.is_available
       | none => false)

/-! ## Preferences page: local list editing (src/web PreferencesPage) -/

/-- A stored preference entry (types/api.ts, Preference), reduced to the
fields the list-editing operations touch; the operations are generic in the
entry payload. -/
structure Preference where
  id : Int
  site_id : Option Nat
  resource_id : Option Nat
  day_of_week : Option Nat
  preferred_start_time : Option String
  duration_minutes : Nat
deriving DecidableEq, Repr

/-- Embedding of PreferencesPage.remove: next.splice(index, 1) deletes the
entry at the index (and deletes nothing when the index is past the end,
as splice does). -/
def removeAt {α : Type} (items : List α) (index : Nat) : List α :=
  items.take index ++ items.drop (index + 1)

/-- Embedding of PreferencesPage.moveUp: index 0 returns the list unchanged,
otherwise the entries at index-1 and index are swapped in a copy.  The page
only invokes it on indices of rendered rows, so both reads succeed; the
fallback branch is unreachable there. -/
def moveUp {α : Type} (items : List α) (index : Nat) : List α :=
  if index = 0 then items
  else
    match items[index - 1]?, items[index]? with
    | some a, some b => (items.set (index - 1) b).set index a
    | _, _ => items

/-! ## Booking durations through the UI (AvailabilityPage, BookingConfirmPage) -/

/-- The availability page duration toggle: the state starts as useState(60)
and each click on one of the two rendered buttons (mapped over the list
[60, 120]) stores the clicked value. -/
def durationAfterClicks (clicks : List Nat) : Nat :=
  clicks.foldl (fun _ c => c) 60

/-- Value of a decimal digit character. -/
def digitVal (c : Char) : Option Nat :=
  if '0' ≤ c ∧ c ≤ '9' then some (c.toNat - '0'.toNat) else none

/-- Decimal accumulator loop for parseDecimalNat. -/
def parseNatLoop : List Char → Nat → Option Nat
  | [], acc => some acc
  | c :: cs, acc =>
    match digitVal c with
    | some d => parseNatLoop cs (acc * 10 + d)
    | none => none

/-- Parsing of a nonempty decimal digit string, the behaviour of the
JavaScript Number conversion on the strings the booking flow produces
(String(duration) for a natural number duration). -/
def parseDecimalNat (s : String) : Option Nat :=
  if s.toList = [] then none else parseNatLoop s.toList 0

/-- Embedding of the duration hand-off read by BookingConfirmPage:
Number(params.get('duration') ?? '60').  An absent parameter falls back to
the string "60"; the page then submits the parsed value as
duration_minutes in its createBooking call. -/
def confirmPageDuration (raw : Option String) : Nat :=
  (parseDecimalNat (raw.getD "60")).getD 0

/-- A foldl that keeps only the last element preserves any property shared
by the start value and all list elements. -/
theorem foldl_keep_last {P : Nat → Prop} :
    ∀ (clicks : List Nat) (init : Nat), (∀ c ∈ clicks, P c) → P init →
      P (clicks.foldl (fun _ c => c) init) := by
  intro clicks
  induction clicks with
  | nil => intro init _ hi; exact hi
  | cons c cs ih =>
    intro init hc _
    exact ih c (fun x hx => hc x (List.mem_cons_of_mem c hx))
      (hc c (List.mem_cons_self c cs))

/-- C4: every booking request constructed through the UI has a duration of
exactly 60 or 120 minutes: the availability page toggle can only hold 60 or
120, that value survives the query-string round trip to the booking confirm
page unchanged, and an absent duration parameter defaults to 60. -/
theorem createBooking_duration_menu (clicks : List Nat)
    (hc : ∀ c ∈ clicks, c = 60 ∨ c = 120) :
    (durationAfterClicks clicks = 60 ∨ durationAfterClicks clicks = 120) ∧
    confirmPageDuration (some (toString (durationAfterClicks clicks))) =
      durationAfterClicks clicks ∧
    confirmPageDuration none = 60 := by
  have hmem : durationAfterClicks clicks = 60 ∨ durationAfterClicks clicks = 120 :=
    foldl_keep_last clicks 60 hc (Or.inl rfl)
  refine ⟨hmem, ?_, by decide⟩
  rcases hmem with h | h <;> rw [h] <;> decide

/-- C4 witness: after selecting the two-hour toggle, the submitted duration
is 120. -/
theorem createBooking_duration_menu_witness :
    durationAfterClicks [120] = 60 ∨ durationAfterClicks [120] = 120 :=
  (createBooking_duration_menu [120] (by decide)).1

/-! ## Preference submission (PreferencesPage.save, endpoints.ts) -/

/-- An outgoing preference entry (types/api.ts, PreferenceIn). -/
structure PreferenceIn where
  site_id : Option Nat
  resource_id : Option Nat
  day_of_week : Option Nat
  preferred_start_time : Option String
  duration_minutes : Nat
deriving DecidableEq, Repr

/-- Projection of a stored entry to its transferable fields, as written in
PreferencesPage.save. -/
def toPreferenceIn (p : Preference) : PreferenceIn :=
  { site_id := p.site_id, resource_id := p.resource_id,
    day_of_week := p.day_of_week,
    preferred_start_time := p.preferred_start_time,
    duration_minutes := p.duration_minutes }

/-- Embedding of PreferencesPage.save: the payload maps every entry of the
current local list — the whole list is transmitted in the single PUT issued
by replacePreferences, never a delta. -/
def savePayload (items : List Preference) : List PreferenceIn :=
  items.map toPreferenceIn

/-- Modelled from the spec: the server-side semantics of the preferences
PUT endpoint (submitPreferenceList), which is not part of the shipped
source tree — endpoints.ts only issues the request.  The spec states the
prior list is replaced wholesale by the submitted one. -/
def replaceStoredPreferences (prior submitted : List PreferenceIn) :
    List PreferenceIn :=
  submitted

/-- C5: submitting a preference list replaces the member's prior list
wholesale: the stored list after a successful update equals exactly the
submitted list, independently of the prior list, and the client's save
operation transmits the entire current ordered list (same length, each
entry the projection of the local entry at the same position). -/
theorem preference_replacement_wholesale
    (priorA priorB P : List PreferenceIn) (items : List Preference) :
    replaceStoredPreferences priorA P = P ∧
    replaceStoredPreferences priorA P = replaceStoredPreferences priorB P ∧
    (savePayload items).length = items.length ∧
    (∀ j : Nat, (savePayload items)[j]? = (items[j]?).map toPreferenceIn) := by
  refine ⟨rfl, rfl, by simp [savePayload], ?_⟩
  intro j
  simp [savePayload, List.getElem?_map]

/-! ## API client (client.ts: apiFetch, refreshAccessToken, ApiRequestError) -/

/-- One violation entry of an error response body (client.ts, the array
case of the ApiError detail field). -/
structure ViolationItem where
  rule : Option String
  message : Option String
  msg : Option String
deriving DecidableEq, Repr

/-- The detail field of an API error body: a plain string or a list of
violation items (client.ts, ApiError). -/
inductive ErrorDetail where
  | text (s : String)
  | violationList (vs : List ViolationItem)
deriving DecidableEq, Repr

/-- The exception apiFetch throws on a non-ok response (client.ts,
ApiRequestError): the response status and the error detail. -/
structure ApiRequestError where
  status : Nat
  detail : ErrorDetail
deriving DecidableEq, Repr

/-- The client-side view of one HTTP response: status code, the parsed
success body, the detail field of the parsed error body when present, and
the status text used as fallback detail. -/
structure ApiResponse (α : Type) where
  status : Nat
  body : α
  detail : Option ErrorDetail
  statusText : String

/-- Response.ok of the fetch API: status in the range 200-299. -/
def ApiResponse.respOk {α : Type} (r : ApiResponse α) : Bool :=
  decide (200 ≤ r.status) && decide (r.status < 300)

/-- Tail of apiFetch after the final response is known: throw
ApiRequestError with the response status and detail (body.detail with the
status text as fallback) when the response is not ok, return undefined for
204 No Content, otherwise return the parsed body. -/
def responseOutcome {α : Type} (r : ApiResponse α) :
    Except ApiRequestError (Option α) :=
  if r.respOk then
    (if r.status = 204 then .ok none else .ok (some r.body))
  else .error ⟨r.status, r.detail.getD (.text r.statusText)⟩

/-- The booking record returned by the bookings endpoint
(types/api.ts, Booking). -/
structure Booking where
  id : Nat
  resource_id : Nat
  user_id : Nat
  booking_date : String
  start_time : String
  end_time : String
  duration_minutes : Nat
  status : String
  source : String
  payment_status : String
  amount_pence : Nat
  created_at : String
  client_secret : Option String

/-- C6: a completed createBooking call has exactly two outcomes.  A 204
response cannot arise for this endpoint — modelled from the spec, the
submitBookingRequest contract always answers with a body, either accepted
with a reservation id or not accepted with the violation list — and for
every other response the call either resolves with the parsed booking
record or rejects with an ApiRequestError carrying the response status and
detail; no third outcome exists. -/
theorem createBooking_outcome_dichotomy (r : ApiResponse Booking)
    (h204 : r.status ≠ 204) :
    responseOutcome r = .ok (some r.body) ∨
    responseOutcome r =
      .error ⟨r.status, r.detail.getD (.text r.statusText)⟩ := by
  rw [responseOutcome]
  by_cases hok : r.respOk
  · rw [if_pos hok, if_neg h204]
    exact Or.inl rfl
  · rw [if_neg hok]
    exact Or.inr rfl

/-- A concrete booking record used by witnesses. -/
def bookingEx : Booking :=
  { id := 1, resource_id := 2, user_id := 3, booking_date := "2026-10-11",
    start_time := "09:00:00", end_time := "10:00:00", duration_minutes := 60,
    status := "confirmed", source := "fcfs", payment_status := "paid",
    amount_pence := 750, created_at := "2026-10-10T21:00:00Z",
    client_secret := none }

/-- A concrete violation entry used by witnesses. -/
def violationEx : ViolationItem :=
  { rule := some "daily_cap",
    message := some "Daily minute cap exceeded", msg := none }

/-- C6 witness: a concrete 400 response with a violation list rejects with
an ApiRequestError holding that list. -/
theorem createBooking_outcome_dichotomy_witness :
    responseOutcome
      { status := 400, body := bookingEx,
        detail := some (.violationList [violationEx]),
        statusText := "Bad Request" } =
      .ok (some bookingEx) ∨
    responseOutcome
      { status := 400, body := bookingEx,
        detail := some (.violationList [violationEx]),
        statusText := "Bad Request" } =
      .error ⟨400, .violationList [violationEx]⟩ :=
  createBooking_outcome_dichotomy
    { status := 400, body := bookingEx,
      detail := some (.violationList [violationEx]),
      statusText := "Bad Request" } (by decide)

/-- Environment of one apiFetch call: the module-level access token, the
refresh token held in localStorage, and the responses the network returns
for the first request, for the token-refresh POST and for the re-sent
request. -/
structure FetchEnv (α : Type) where
  accessToken : Option String
  refreshTokenStored : Option String
  firstResponse : ApiResponse α
  refreshResponse : ApiResponse (String × String)
  secondResponse : ApiResponse α

/-- Trace of one apiFetch call: how many requests went to the requested
path, how many HTTP requests were issued in total (token-refresh POST
included), and the outcome. -/
structure FetchTrace (α : Type) where
  pathRequests : Nat
  totalRequests : Nat
  outcome : Except ApiRequestError (Option α)

/-- Embedding of apiFetch with refreshAccessToken inlined: the request is
re-sent exactly once, when the first response is 401 while an access token
is set and the refresh succeeded; refreshAccessToken issues its own POST
whenever a refresh token is stored, and succeeds when that response is ok. -/
def apiFetchModel {α : Type} (env : FetchEnv α) : FetchTrace α :=
  let r1 := env.firstResponse
  if r1.status = 401 ∧ env.accessToken.isSome then
    if env.refreshTokenStored.isSome then
      if env.refreshResponse.respOk then
        { pathRequests := 2, totalRequests := 3,
          outcome := responseOutcome env.secondResponse }
      else
        { pathRequests := 1, totalRequests := 2,
          outcome := responseOutcome r1 }
    else
      { pathRequests := 1, totalRequests := 1,
        outcome := responseOutcome r1 }
  else
    { pathRequests := 1, totalRequests := 1,
      outcome := responseOutcome r1 }

/-- The response whose status apiFetch ultimately inspects: the re-sent
request's response when the retry happened, the first response otherwise. -/
def finalResponse {α : Type} (env : FetchEnv α) : ApiResponse α :=
  if env.firstResponse.status = 401 ∧ env.accessToken.isSome ∧
      env.refreshTokenStored.isSome ∧ env.refreshResponse.respOk = true then
    env.secondResponse
  else env.firstResponse

/-- How responseOutcome relates to the inspected response: it throws
exactly on a non-ok response, carrying that response's status and detail,
and returns undefined for an ok 204 response. -/
theorem responseOutcome_spec {α : Type} (r : ApiResponse α) :
    (r.respOk = false ↔
      responseOutcome r =
        .error ⟨r.status, r.detail.getD (.text r.statusText)⟩) ∧
    (r.respOk = true → r.status = 204 → responseOutcome r = .ok none) := by
  refine ⟨⟨?_, ?_⟩, ?_⟩
  · intro h
    rw [responseOutcome, h]
    simp
  · intro h
    by_cases hok : r.respOk = true
    · rw [responseOutcome, if_pos hok] at h
      by_cases h204 : r.status = 204
      · rw [if_pos h204] at h; simp at h
      · rw [if_neg h204] at h; simp at h
    · simpa using hok
  · intro hok h204
    rw [responseOutcome, if_pos hok, if_pos h204]

/-- A concrete apiFetch environment: the first request gets 401 while an
access token is set, and the stored refresh token refreshes successfully. -/
def fetchEnvEx : FetchEnv Nat :=
  { accessToken := some "jwt",
    refreshTokenStored := some "refresh",
    firstResponse :=
      { status := 401, body := 0, detail := none,
        statusText := "Unauthorized" },
    refreshResponse :=
      { status := 200, body := ("newjwt", "newrefresh"), detail := none,
        statusText := "OK" },
    secondResponse :=
      { status := 200, body := 7, detail := none, statusText := "OK" } }

/-- C9 counterexample: in fetchEnvEx apiFetch issues three HTTP requests —
the original request, the token-refresh POST inside refreshAccessToken,
and the re-sent request — so the claim that at most two HTTP requests are
issued is false as stated. -/
theorem apiFetch_at_most_two_requests_false :
    ¬ ((apiFetchModel fetchEnvEx).totalRequests ≤ 2) := by decide

/-- C9 (amended): apiFetch issues at most two requests to the requested
path and at most three HTTP requests in total (the token-refresh POST
included); it re-sends the request exactly once, and only when the first
response had status 401 while an access token was set and the token
refresh succeeded; it throws ApiRequestError carrying the final response's
status and detail exactly when the final response is not ok, and resolves
to undefined for a final 204 response. -/
theorem apiFetch_request_behaviour {α : Type} (env : FetchEnv α) :
    (apiFetchModel env).pathRequests ≤ 2 ∧
    (apiFetchModel env).totalRequests ≤ 3 ∧
    ((apiFetchModel env).pathRequests = 2 ↔
      (env.firstResponse.status = 401 ∧ env.accessToken.isSome = true ∧
        env.refreshTokenStored.isSome = true ∧
        env.refreshResponse.respOk = true)) ∧
    (apiFetchModel env).outcome = responseOutcome (finalResponse env) ∧
    ((finalResponse env).respOk = false ↔
      (apiFetchModel env).outcome =
        .error ⟨(finalResponse env).status,
          ((finalResponse env).detail).getD
            (.text (finalResponse env).statusText)⟩) ∧
    ((finalResponse env).respOk = true → (finalResponse env).status = 204 →
      (apiFetchModel env).outcome = .ok none) := by
  by_cases h1 : env.firstResponse.status = 401 ∧ env.accessToken.isSome = true
  · by_cases h2 : env.refreshTokenStored.isSome = true
    · by_cases h3 : env.refreshResponse.respOk = true
      · have hm : apiFetchModel env =
            { pathRequests := 2, totalRequests := 3,
              outcome := responseOutcome env.secondResponse } := by
          rw [apiFetchModel]
          simp only [if_pos h1, if_pos h2, if_pos h3]
        have hfr : finalResponse env = env.secondResponse := by
          rw [finalResponse, if_pos ⟨h1.1, h1.2, h2, h3⟩]
        rw [hm, hfr]
        exact ⟨by norm_num, by norm_num, by simp [h1.1, h1.2, h2, h3], rfl,
          (responseOutcome_spec _).1, (responseOutcome_spec _).2⟩
      · have hm : apiFetchModel env =
            { pathRequests := 1, totalRequests := 2,
              outcome := responseOutcome env.firstResponse } := by
          rw [apiFetchModel]
          simp only [if_pos h1, if_pos h2, if_neg h3]
        have hfr : finalResponse env = env.firstResponse := by
          rw [finalResponse, if_neg]
          rintro ⟨-, -, -, hc⟩
          exact h3 hc
        rw [hm, hfr]
        exact ⟨by norm_num, by norm_num, by simp [h3], rfl,
          (responseOutcome_spec _).1, (responseOutcome_spec _).2⟩
    · have hm : apiFetchModel env =
          { pathRequests := 1, totalRequests := 1,
            outcome := responseOutcome env.firstResponse } := by
        rw [apiFetchModel]
        simp only [if_pos h1, if_neg h2]
      have hfr : finalResponse env = env.firstResponse := by
        rw [finalResponse, if_neg]
        rintro ⟨-, -, hc, -⟩
        exact h2 hc
      rw [hm, hfr]
      exact ⟨by norm_num, by norm_num, by simp [h2], rfl,
        (responseOutcome_spec _).1, (responseOutcome_spec _).2⟩
  · have hm : apiFetchModel env =
        { pathRequests := 1, totalRequests := 1,
          outcome := responseOutcome env.firstResponse } := by
      rw [apiFetchModel]
      simp only [if_neg h1]
    have hfr : finalResponse env = env.firstResponse := by
      rw [finalResponse, if_neg]
      rintro ⟨ha, hb, -, -⟩
      exact h1 ⟨ha, hb⟩
    rw [hm, hfr]
    refine ⟨by norm_num, by norm_num, ?_, rfl,
      (responseOutcome_spec _).1, (responseOutcome_spec _).2⟩
    constructor
    · intro h
      simp at h
    · rintro ⟨ha, hb, -, -⟩
      exact absurd ⟨ha, hb⟩ h1

/-- A concrete apiFetch environment whose first response is 204 No Content
with no access token set. -/
def fetchEnv204 : FetchEnv Nat :=
  { accessToken := none, refreshTokenStored := none,
    firstResponse :=
      { status := 204, body := 0, detail := none,
        statusText := "No Content" },
    refreshResponse :=
      { status := 200, body := ("a", "b"), detail := none,
        statusText := "OK" },
    secondResponse :=
      { status := 200, body := 1, detail := none, statusText := "OK" } }

/-- C9 witness: in fetchEnv204 the final response is the ok 204 first
response and the call resolves to undefined. -/
theorem apiFetch_request_behaviour_witness :
    (apiFetchModel fetchEnv204).outcome = .ok none :=
  (apiFetch_request_behaviour fetchEnv204).2.2.2.2.2 (by decide) (by decide)

/-! ## Advance Window Gate (modelled from the spec) -/

/-- MembershipEntitlement of the spec data model (section 3): the
per-tier advance horizon, concurrency bound, daily minute cap and
cancellation deadline. -/
structure Entitlement where
  advance_days : Nat
  max_concurrent : Nat
  daily_minute_cap : Nat
  cancellation_deadline_hours : Nat
deriving DecidableEq, Repr

/-- Seconds in one civil day of the venue's local calendar. -/
def secondsPerDay : Nat := 86400

/-- Local second-of-day of the 21:00 opening instant. -/
def openingSecond : Nat := 21 * 3600

/-- Calendar day number of an instant given in local seconds. -/
def localDate (now : Nat) : Nat := now / secondsPerDay

/-- Modelled from the spec: the opening instant of a target date for a
given horizon — the 21:00 local instant of the day advance_days before the
target date, from which requests for that date are admitted (spec 4.1 and
4.3: the candidate date becomes bookable at the prior 21:00 opening of its
horizon). -/
def openingInstant (target : Nat) (advance_days : Nat) : Nat :=
  (target - advance_days) * secondsPerDay + openingSecond

/-- Modelled from the spec: isAdmissible(now, tier, target_date) of the
Advance Window Gate, a component the spec specifies but the source tree
does not yet contain (the README checklist lists booking-rule enforcement
as open).  The target date must not lie in the past, must be at most
advance_days ahead of the local date of now, and now must have reached the
opening instant of that target date for the tier's horizon. -/
def isAdmissible (now : Nat) (tier : Entitlement) (target : Nat) : Bool :=
  decide (localDate now ≤ target) &&
  decide (target - localDate now ≤ tier.advance_days) &&
  decide (openingInstant target tier.advance_days ≤ now)

/-- C7: a request made exactly at the 21:00 local opening instant for a
target date exactly advance_days ahead is admissible, and the same request
made one second earlier is not. -/
theorem isAdmissible_boundary (tier : Entitlement) (target : Nat)
    (ha : tier.advance_days ≤ target) :
    isAdmissible ((target - tier.advance_days) * secondsPerDay +
      openingSecond) tier target = true ∧
    isAdmissible ((target - tier.advance_days) * secondsPerDay +
      openingSecond - 1) tier target = false := by
  have hdate : localDate ((target - tier.advance_days) * secondsPerDay +
      openingSecond) = target - tier.advance_days := by
    simp only [localDate, secondsPerDay, openingSecond]
    omega
  have hdate2 : localDate ((target - tier.advance_days) * secondsPerDay +
      openingSecond - 1) = target - tier.advance_days := by
    simp only [localDate, secondsPerDay, openingSecond]
    omega
  constructor
  · rw [isAdmissible, hdate]
    simp only [Bool.and_eq_true, decide_eq_true_eq, openingInstant,
      secondsPerDay, openingSecond]
    omega
  · have hlt : ¬ (openingInstant target tier.advance_days ≤
        (target - tier.advance_days) * secondsPerDay + openingSecond - 1) := by
      simp only [openingInstant, secondsPerDay, openingSecond]
      omega
    rw [isAdmissible, hdate2]
    simp [hlt]

/-- C7 witness: with a three-day horizon and target day 10, the request at
the 21:00 opening instant of day 7 is admissible and one second earlier it
is not. -/
theorem isAdmissible_boundary_witness :
    isAdmissible (7 * 86400 + 75600) ⟨3, 2, 120, 24⟩ 10 = true ∧
    isAdmissible (7 * 86400 + 75599) ⟨3, 2, 120, 24⟩ 10 = false :=
  isAdmissible_boundary ⟨3, 2, 120, 24⟩ 10 (by decide)

/-- Swapping two adjacent positions of a list with set-set yields a
permutation of the original list. -/
theorem set_set_adjacent_perm {α : Type} :
    ∀ (l : List α) (i : Nat) (a b : α), l[i]? = some a →
      l[i + 1]? = some b → ((l.set i b).set (i + 1) a).Perm l := by
  intro l
  induction l with
  | nil => intro i a b h _; simp at h
  | cons x t ih =>
    intro i a b ha hb
    cases i with
    | zero =>
      cases t with
      | nil => simp at hb
      | cons y t2 =>
        rw [List.getElem?_cons_zero] at ha
        rw [List.getElem?_cons_succ, List.getElem?_cons_zero] at hb
        injection ha with ha; injection hb with hb
        subst ha; subst hb
        exact List.Perm.swap x y t2
    | succ n =>
      rw [List.getElem?_cons_succ] at ha hb
      have hstep : ((x :: t).set (n + 1) b).set (n + 2) a =
          x :: ((t.set n b).set (n + 1) a) := rfl
      rw [hstep]
      exact List.Perm.cons x (ih n a b ha hb)

/-- C8: on the availability page, canBook at an in-range index is true
exactly when the slot is available and either the selected duration is at
most 60 minutes or the next slot exists and is available; in particular a
120-minute booking can never start at the last listed slot of a day. -/
theorem canBook_characterisation (slots : List Slot) (duration : Nat)
    (i : Nat) :
    (canBook slots duration i = true ↔
      (slots[i]?.map Slot.is_available = some true ∧
        (duration ≤ 60 ∨
          (i + 1 < slots.length ∧
            slots[i + 1]?.map Slot.is_available = some true)))) ∧
    (duration = 120 ∧ i + 1 = slots.length → canBook slots duration i = false) := by
  constructor
  · rw [canBook]
    cases hg : slots[i]? with
    | none => simp
    | some s =>
      by_cases hav : s.is_available
      · by_cases hd : duration ≤ 60
        · simp [hav, hd]
        · cases hg2 : slots[i + 1]? with
          | none =>
            have hge : slots.length ≤ i + 1 := List.getElem?_eq_none_iff.mp hg2
            have hnlt : ¬ (i + 1 < slots.length) := by omega
            simp [hav, hd, hnlt, hg2]
          | some t =>
            have hlt : i + 1 < slots.length := by
              rcases List.getElem?_eq_some_iff.mp hg2 with ⟨hw, -⟩
              exact hw
            by_cases ht : t.is_available <;> simp [hav, hd, hlt, ht]
      · simp only [Bool.not_eq_true] at hav
        simp [hav]
  · rintro ⟨hd, hlast⟩
    subst hd
    rw [canBook]
    cases hg : slots[i]? with
    | none => rfl
    | some s =>
      have hnlt : ¬ (i + 1 < slots.length) := by omega
      by_cases hav : s.is_available
      · simp [hav, hnlt]
      · simp only [Bool.not_eq_true] at hav
        simp [hav]

/-- C8 witness: on a concrete two-slot day with both slots available, a
120-minute booking cannot start at the last slot. -/
theorem canBook_characterisation_witness :
    canBook [⟨"08:00", "09:00", true⟩, ⟨"09:00", "10:00", true⟩] 120 1 = false :=
  (canBook_characterisation
    [⟨"08:00", "09:00", true⟩, ⟨"09:00", "10:00", true⟩] 120 1).2 ⟨rfl, rfl⟩

/-- C10: on the preferences page, moveUp at index 0 leaves the local list
unchanged; at an interior index it swaps the entries at index-1 and index,
keeps every other entry and the length, and yields a permutation of the
original list; remove deletes exactly the entry at its index, keeping all
earlier entries in place and shifting the later ones down by one. -/
theorem moveUp_remove_characterisation {α : Type} (l : List α) (i : Nat) :
    moveUp l 0 = l ∧
    (0 < i → i < l.length →
      (moveUp l i).length = l.length ∧
      (moveUp l i)[i - 1]? = l[i]? ∧
      (moveUp l i)[i]? = l[i - 1]? ∧
      (∀ j, j ≠ i - 1 → j ≠ i → (moveUp l i)[j]? = l[j]?) ∧
      (moveUp l i).Perm l) ∧
    (i < l.length →
      (removeAt l i).length = l.length - 1 ∧
      (∀ j, j < i → (removeAt l i)[j]? = l[j]?) ∧
      (∀ j, i ≤ j → (removeAt l i)[j]? = l[j + 1]?)) := by
  refine ⟨by simp [moveUp], ?_, ?_⟩
  · intro hpos hlen
    have hprev : i - 1 < l.length := by omega
    obtain ⟨a, ha⟩ : ∃ a, l[i - 1]? = some a :=
      ⟨_, List.getElem?_eq_getElem hprev⟩
    obtain ⟨b, hb⟩ : ∃ b, l[i]? = some b :=
      ⟨_, List.getElem?_eq_getElem hlen⟩
    have hne : i ≠ 0 := by omega
    have hmv : moveUp l i = (l.set (i - 1) b).set i a := by
      rw [moveUp, if_neg hne, ha, hb]
    refine ⟨by simp [hmv], ?_, ?_, ?_, ?_⟩
    · rw [hmv, List.getElem?_set_ne (by omega),
        List.getElem?_set_self hprev, hb]
    · rw [hmv, List.getElem?_set_self (by simpa using hlen), ha]
    · intro j hj1 hj2
      rw [hmv, List.getElem?_set_ne (Ne.symm hj2), List.getElem?_set_ne (Ne.symm hj1)]
    · have hsucc : i - 1 + 1 = i := by omega
      rw [hmv]
      have hperm := set_set_adjacent_perm l (i - 1) a b ha (by rw [hsucc]; exact hb)
      rwa [hsucc] at hperm
  · intro hlen
    have ht : (l.take i).length = i := by rw [List.length_take]; omega
    refine ⟨?_, ?_, ?_⟩
    · simp only [removeAt, List.length_append, List.length_take, List.length_drop]
      omega
    · intro j hj
      rw [removeAt, List.getElem?_append_left (by rw [ht]; exact hj),
        List.getElem?_take_of_lt hj]
    · intro j hj
      rw [removeAt, List.getElem?_append_right (by rw [ht]; exact hj),
        List.getElem?_drop, ht]
      congr 1
      omega

/-- C10 witness: on a concrete three-entry list, moveUp at index 1 yields a
permutation of the original list and removal at index 1 shortens it by one. -/
theorem moveUp_remove_characterisation_witness :
    (moveUp [1, 2, 3] 1).Perm [1, 2, 3] ∧ (removeAt [1, 2, 3] 1).length = 2 :=
  ⟨((moveUp_remove_characterisation [1, 2, 3] 1).2.1
      (by decide) (by decide)).2.2.2.2,
   ((moveUp_remove_characterisation [1, 2, 3] 1).2.2 (by decide)).1⟩

/-! ## Reservations, Conflict Index and Rule Validator (modelled from the spec) -/

/-- Reservation status (spec data model). -/
inductive ResStatus where
  | confirmed
  | cancelled
deriving DecidableEq, Repr

/-- Reservation source path (spec data model). -/
inductive ResSource where
  | fcfs
  | fairnessAllocation
deriving DecidableEq, Repr

/-- A reservation record, modelled from the spec data model: resource,
date, start minute, duration in minutes, member, status and source, plus
an identity for cancellation addressing. -/
structure Reservation where
  rid : Nat
  resource : Nat
  date : Nat
  start : Nat
  duration : Nat
  member : Nat
  status : ResStatus
  source : ResSource
deriving DecidableEq, Repr

/-- Two reservations collide when they are for the same resource on the
same date and their [start, start+duration) intervals intersect. -/
def collides (r1 r2 : Reservation) : Bool :=
  r1.resource == r2.resource && r1.date == r2.date &&
  decide (r1.start < r2.start + r2.duration) &&
  decide (r2.start < r1.start + r1.duration)

/-- A candidate reservation under validation (spec 4.1). -/
structure Candidate where
  member : Nat
  resource : Nat
  date : Nat
  start : Nat
  duration : Nat
deriving DecidableEq, Repr

/-- The reservation a candidate becomes on commit. -/
def Candidate.toRes (c : Candidate) (rid : Nat) (st : ResStatus)
    (src : ResSource) : Reservation :=
  { rid := rid, resource := c.resource, date := c.date, start := c.start,
    duration := c.duration, member := c.member, status := st, source := src }

/-- Modelled from the spec (4.2 Conflict Index): a requested slot is free
when no confirmed reservation for the same resource and date overlaps it. -/
def isFree (store : List Reservation) (c : Candidate) : Bool :=
  store.all fun r =>
    !(r.status == ResStatus.confirmed &&
      collides r (c.toRes 0 ResStatus.confirmed ResSource.fcfs))

/-- A rule violation: stable machine-readable code plus human-readable
message (spec 4.1). -/
structure Violation where
  code : String
  message : String
deriving DecidableEq, Repr

/-- The advance-window violation. -/
def advanceViolation : Violation :=
  ⟨"advance_window", "Date is outside your advance booking window"⟩

/-- The slot-duration violation. -/
def durationViolation : Violation :=
  ⟨"slot_duration", "Duration must be 60 or 120 minutes"⟩

/-- The max-concurrent violation. -/
def concurrentViolation : Violation :=
  ⟨"max_concurrent", "Too many concurrent future bookings"⟩

/-- The daily-minute-cap violation. -/
def dailyCapViolation : Violation :=
  ⟨"daily_minute_cap", "Daily booked minutes cap exceeded"⟩

/-- The conflict violation. -/
def conflictViolation : Violation :=
  ⟨"conflict", "Slot overlaps an existing booking"⟩

/-- The slot-duration rule: exactly 60 or 120 minutes. -/
def durationOk (c : Candidate) : Bool :=
  c.duration == 60 || c.duration == 120

/-- A member's future confirmed reservation, relative to the local date of
now. -/
def isFutureConfirmedOf (now m : Nat) (r : Reservation) : Bool :=
  r.member == m && r.status == ResStatus.confirmed &&
    decide (localDate now ≤ r.date)

/-- The max-concurrent rule: the member's future confirmed count must stay
within the entitlement after this booking. -/
def concurrentOk (c : Candidate) (ent : Entitlement)
    (store : List Reservation) (now : Nat) : Bool :=
  decide (store.countP (isFutureConfirmedOf now c.member) + 1 ≤
    ent.max_concurrent)

/-- Confirmed minutes a member already holds on a date. -/
def minutesOn (store : List Reservation) (m date : Nat) : Nat :=
  (store.filter fun r =>
      r.member == m && r.status == ResStatus.confirmed &&
        r.date == date).foldl
    (fun acc r => acc + r.duration) 0

/-- The daily-minute-cap rule: booked minutes plus this candidate must stay
within the cap (minutes, not counts). -/
def dailyCapOk (c : Candidate) (ent : Entitlement)
    (store : List Reservation) : Bool :=
  decide (minutesOn store c.member c.date + c.duration ≤
    ent.daily_minute_cap)

/-- Modelled from the spec (4.1 Rule Validator): validate evaluates all
five checks — advance window, slot duration, max concurrent, daily minute
cap, conflict — and returns the complete violation set, never
short-circuiting; the empty set means accept.  No side effects. -/
def validate (c : Candidate) (ent : Entitlement) (store : List Reservation)
    (now : Nat) : List Violation :=
  (if isAdmissible now ent c.date then [] else [advanceViolation]) ++
  (if durationOk c then [] else [durationViolation]) ++
  (if concurrentOk c ent store now then [] else [concurrentViolation]) ++
  (if dailyCapOk c ent store then [] else [dailyCapViolation]) ++
  (if isFree store c then [] else [conflictViolation])

/-- Number of failed checks among the five rules. -/
def failCount (c : Candidate) (ent : Entitlement) (store : List Reservation)
    (now : Nat) : Nat :=
  (if isAdmissible now ent c.date then 0 else 1) +
  (if durationOk c then 0 else 1) +
  (if concurrentOk c ent store now then 0 else 1) +
  (if dailyCapOk c ent store then 0 else 1) +
  (if isFree store c then 0 else 1)

/-- Embedding of the message extraction in BookingConfirmPage's
handleConfirm error handler: d.message ?? d.msg ?? ''. -/
def itemMessage (d : ViolationItem) : String :=
  d.message.getD (d.msg.getD "")

/-- Join with a separator between consecutive elements, the behaviour of
Array.prototype.join. -/
def joinWithSep (sep : String) : List String → String
  | [] => ""
  | [s] => s
  | s :: t :: rest => s ++ sep ++ joinWithSep sep (t :: rest)

/-- Embedding of the error display string built in handleConfirm: every
extracted message of the detail array, joined with ". ". -/
def joinedErrorText (detail : List ViolationItem) : String :=
  joinWithSep ". " (detail.map itemMessage)

/-- An element's characters are an infix of the characters of any
separator-join containing it. -/
theorem mem_infix_joinWithSep (sep : String) :
    ∀ (l : List String) (s : String), s ∈ l →
      s.data <:+: (joinWithSep sep l).data := by
  intro l
  induction l with
  | nil => intro s h; cases h
  | cons x t ih =>
    intro s h
    cases t with
    | nil =>
      rcases List.mem_cons.mp h with h | h
      · subst h
        exact List.infix_refl _
      · cases h
    | cons y t2 =>
      rcases List.mem_cons.mp h with h | h
      · subst h
        refine ⟨[], (sep ++ joinWithSep sep (y :: t2)).data, ?_⟩
        simp [joinWithSep]
      · have hih := ih s h
        rcases hih with ⟨pre, post, heq⟩
        refine ⟨(x ++ sep).data ++ pre, post, ?_⟩
        have : joinWithSep sep (x :: y :: t2) =
            x ++ sep ++ joinWithSep sep (y :: t2) := rfl
        rw [this]
        simp only [String.data_append, List.append_assoc]
        rw [← List.append_assoc pre, heq]

/-- Helper: membership in a guarded singleton. -/
theorem mem_if_singleton {α : Type} [DecidableEq α] (x y : α) (b : Prop)
    [Decidable b] :
    x ∈ (if b then ([] : List α) else [y]) ↔ (¬ b ∧ x = y) := by
  split_ifs with hb <;> simp [hb]

/-- Helper: length of a guarded singleton. -/
theorem length_if_singleton {α : Type} (y : α) (b : Prop) [Decidable b] :
    (if b then ([] : List α) else [y]).length = if b then 0 else 1 := by
  split_ifs <;> rfl

/-- C2: rule validation is complete, never fail-fast — the violation list
has exactly one entry per failed check (so a request violating two rules
yields exactly two violations), each rule's violation is present exactly
when its check fails — and the client surfaces every returned violation
message: each extracted message occurs inside the single joined error
display. -/
theorem validator_completeness_and_client_display (c : Candidate)
    (ent : Entitlement) (store : List Reservation) (now : Nat)
    (detail : List ViolationItem) :
    (validate c ent store now).length = failCount c ent store now ∧
    (advanceViolation ∈ validate c ent store now ↔
      isAdmissible now ent c.date = false) ∧
    (durationViolation ∈ validate c ent store now ↔ durationOk c = false) ∧
    (concurrentViolation ∈ validate c ent store now ↔
      concurrentOk c ent store now = false) ∧
    (dailyCapViolation ∈ validate c ent store now ↔
      dailyCapOk c ent store = false) ∧
    (conflictViolation ∈ validate c ent store now ↔
      isFree store c = false) ∧
    (∀ v ∈ detail, (itemMessage v).data <:+: (joinedErrorText detail).data) := by
  have hne1 : advanceViolation ≠ durationViolation := by decide
  have hne2 : advanceViolation ≠ concurrentViolation := by decide
  have hne3 : advanceViolation ≠ dailyCapViolation := by decide
  have hne4 : advanceViolation ≠ conflictViolation := by decide
  have hne5 : durationViolation ≠ advanceViolation := by decide
  have hne6 : durationViolation ≠ concurrentViolation := by decide
  have hne7 : durationViolation ≠ dailyCapViolation := by decide
  have hne8 : durationViolation ≠ conflictViolation := by decide
  have hne9 : concurrentViolation ≠ advanceViolation := by decide
  have hne10 : concurrentViolation ≠ durationViolation := by decide
  have hne11 : concurrentViolation ≠ dailyCapViolation := by decide
  have hne12 : concurrentViolation ≠ conflictViolation := by decide
  have hne13 : dailyCapViolation ≠ advanceViolation := by decide
  have hne14 : dailyCapViolation ≠ durationViolation := by decide
  have hne15 : dailyCapViolation ≠ concurrentViolation := by decide
  have hne16 : dailyCapViolation ≠ conflictViolation := by decide
  have hne17 : conflictViolation ≠ advanceViolation := by decide
  have hne18 : conflictViolation ≠ durationViolation := by decide
  have hne19 : conflictViolation ≠ concurrentViolation := by decide
  have hne20 : conflictViolation ≠ dailyCapViolation := by decide
  refine ⟨?_, ?_, ?_, ?_, ?_, ?_, ?_⟩
  · simp only [validate, failCount, List.length_append, length_if_singleton]
  · simp only [validate, List.mem_append, mem_if_singleton,
      Bool.not_eq_true]
    simp [hne1, hne2, hne3, hne4, Bool.not_eq_true]
  · simp only [validate, List.mem_append, mem_if_singleton,
      Bool.not_eq_true]
    simp [hne5, hne6, hne7, hne8, Bool.not_eq_true]
  · simp only [validate, List.mem_append, mem_if_singleton,
      Bool.not_eq_true]
    simp [hne9, hne10, hne11, hne12, Bool.not_eq_true]
  · simp only [validate, List.mem_append, mem_if_singleton,
      Bool.not_eq_true]
    simp [hne13, hne14, hne15, hne16, Bool.not_eq_true]
  · simp only [validate, List.mem_append, mem_if_singleton,
      Bool.not_eq_true]
    simp [hne17, hne18, hne19, hne20, Bool.not_eq_true]
  · intro v hv
    exact mem_infix_joinWithSep ". " (detail.map itemMessage)
      (itemMessage v) (List.mem_map_of_mem itemMessage hv)

/-- C2 witness: a concrete two-item detail list surfaces its second
message inside the joined error display. -/
theorem validator_completeness_witness :
    (itemMessage ⟨some "conflict",
        some "Slot overlaps an existing booking", none⟩).data <:+:
      (joinedErrorText
        [⟨none, some "Duration must be 60 or 120 minutes", none⟩,
         ⟨some "conflict", some "Slot overlaps an existing booking",
          none⟩]).data :=
  (validator_completeness_and_client_display ⟨1, 1, 1, 540, 60⟩
      ⟨1, 1, 60, 24⟩ [] 0
      [⟨none, some "Duration must be 60 or 120 minutes", none⟩,
       ⟨some "conflict", some "Slot overlaps an existing booking",
        none⟩]).2.2.2.2.2.2 _ (by decide)

/-! ## Reservation state machine and the no-overlap invariant (modelled
from the spec) -/

/-- Modelled from the spec (4.2): reserve either commits a confirmed
reservation for a free slot or fails with Conflict, never partially. -/
def fcfsReserve (store : List Reservation) (c : Candidate) (rid : Nat) :
    Option (List Reservation) :=
  if isFree store c then
    some (store ++ [c.toRes rid ResStatus.confirmed ResSource.fcfs])
  else none

/-- Pairwise compatibility of a solver batch: no two assigned slots
collide. -/
def batchCompatible : List Candidate → Bool
  | [] => true
  | c :: rest =>
    rest.all (fun c2 =>
      !(collides (c.toRes 0 ResStatus.confirmed ResSource.fcfs)
        (c2.toRes 0 ResStatus.confirmed ResSource.fcfs))) &&
    batchCompatible rest

/-- The confirmed reservations a committed batch becomes, with ascending
identities. -/
def commitBatch : Nat → List Candidate → List Reservation
  | _, [] => []
  | rid, c :: rest =>
    c.toRes rid ResStatus.confirmed ResSource.fairnessAllocation ::
      commitBatch (rid + 1) rest

/-- Modelled from the spec (4.5, 4.6 and section 5): at window close the
solver's assignment is committed as one atomic batch of confirmed
reservations with source fairness-allocation; the assignment draws its
slots from the availability snapshot (each free in the pre-commit store)
and never sells one slot twice nor overlapping slots, as the
no-double-assignment invariant of section 5 requires; on any violation
nothing at all is committed. -/
def allocCommit (store : List Reservation) (batch : List Candidate)
    (baseRid : Nat) : List Reservation :=
  if batchCompatible batch && batch.all (fun c => isFree store c) then
    store ++ commitBatch baseRid batch
  else store

/-- Status transition applied by cancellation to a single record. -/
def cancelOne (rid : Nat) (r : Reservation) : Reservation :=
  if r.rid == rid then { r with status := ResStatus.cancelled } else r

/-- Modelled from the spec: cancelReservation destroys a reservation
softly, via a status transition to cancelled on the addressed record. -/
def cancelReservation (store : List Reservation) (rid : Nat) :
    List Reservation :=
  store.map (cancelOne rid)

/-- The unique-active-interval invariant (spec data model and section 8):
no two confirmed reservations for the same resource and date have
overlapping [start, start+duration) intervals. -/
def NoOverlap (store : List Reservation) : Prop :=
  List.Pairwise
    (fun r1 r2 => r1.status = ResStatus.confirmed →
      r2.status = ResStatus.confirmed → collides r1 r2 = false) store

/-- System states reachable from the empty store through the
reservation-creating and reservation-changing operations. -/
inductive Reachable : List Reservation → Prop where
  | empty : Reachable []
  | fcfs {s s2 : List Reservation} {c : Candidate} {rid : Nat} :
      Reachable s → fcfsReserve s c rid = some s2 → Reachable s2
  | alloc {s : List Reservation} (batch : List Candidate) (baseRid : Nat) :
      Reachable s → Reachable (allocCommit s batch baseRid)
  | cancel {s : List Reservation} (rid : Nat) :
      Reachable s → Reachable (cancelReservation s rid)

/-- isFree read elementwise: every confirmed reservation of the store is
collision-free with the candidate (at any identity, status and source). -/
theorem isFree_spec {store : List Reservation} {c : Candidate}
    (h : isFree store c = true) (r : Reservation) (hr : r ∈ store)
    (hst : r.status = ResStatus.confirmed) (rid : Nat) (st : ResStatus)
    (src : ResSource) : collides r (c.toRes rid st src) = false := by
  have hall := List.all_eq_true.mp h r hr
  rw [hst] at hall
  simp only [beq_self_eq_true, Bool.true_and, Bool.not_eq_true'] at hall
  exact hall

/-- Members of a committed batch come from the batch's candidates. -/
theorem mem_commitBatch {r : Reservation} :
    ∀ {batch : List Candidate} {rid : Nat}, r ∈ commitBatch rid batch →
      ∃ c ∈ batch, ∃ k, r = c.toRes k ResStatus.confirmed
        ResSource.fairnessAllocation := by
  intro batch
  induction batch with
  | nil => intro rid h; cases h
  | cons c rest ih =>
    intro rid h
    rcases List.mem_cons.mp h with h | h
    · exact ⟨c, List.mem_cons_self c rest, rid, h⟩
    · rcases ih h with ⟨c2, hc2, k, hk⟩
      exact ⟨c2, List.mem_cons_of_mem c hc2, k, hk⟩

/-- Collision only reads the slot fields, so the identity, status and
source given to toRes are irrelevant. -/
theorem collides_toRes_irrel (a : Reservation) (c : Candidate)
    (k1 k2 : Nat) (st1 st2 : ResStatus) (src1 src2 : ResSource) :
    collides a (c.toRes k1 st1 src1) = collides a (c.toRes k2 st2 src2) := rfl

/-- Same for the left argument. -/
theorem collides_toRes_irrel_left (c : Candidate) (a : Reservation)
    (k1 k2 : Nat) (st1 st2 : ResStatus) (src1 src2 : ResSource) :
    collides (c.toRes k1 st1 src1) a = collides (c.toRes k2 st2 src2) a := rfl

/-- A compatible batch commits to a pairwise collision-free list. -/
theorem commitBatch_pairwise :
    ∀ {batch : List Candidate}, batchCompatible batch = true →
      ∀ (rid : Nat), List.Pairwise (fun r1 r2 => collides r1 r2 = false)
        (commitBatch rid batch) := by
  intro batch
  induction batch with
  | nil => intro _ rid; exact List.Pairwise.nil
  | cons c rest ih =>
    intro h rid
    rw [batchCompatible, Bool.and_eq_true] at h
    refine List.Pairwise.cons ?_ (ih h.2 (rid + 1))
    intro r2 hr2
    rcases mem_commitBatch hr2 with ⟨c2, hc2, k, hk⟩
    subst hk
    have hall := List.all_eq_true.mp h.1 c2 hc2
    simp only [Bool.not_eq_true'] at hall
    rw [collides_toRes_irrel_left c _ rid 0 ResStatus.confirmed
      ResStatus.confirmed ResSource.fairnessAllocation ResSource.fcfs,
      collides_toRes_irrel _ c2 k 0 ResStatus.confirmed ResStatus.confirmed
      ResSource.fairnessAllocation ResSource.fcfs]
    exact hall

/-- Cancellation keeps the slot fields of every record. -/
theorem collides_cancelOne (rid : Nat) (r1 r2 : Reservation) :
    collides (cancelOne rid r1) (cancelOne rid r2) = collides r1 r2 := by
  rw [cancelOne, cancelOne]
  split_ifs <;> rfl

/-- A record confirmed after cancellation was confirmed before. -/
theorem cancelOne_confirmed {rid : Nat} {r : Reservation}
    (h : (cancelOne rid r).status = ResStatus.confirmed) :
    r.status = ResStatus.confirmed := by
  rw [cancelOne] at h
  split_ifs at h with hif
  exact h

/-- C1: every reachable system state satisfies the unique-active-interval
invariant — no two confirmed reservations for the same resource and date
overlap in time; FCFS commit, fairness-allocation commit and cancellation
all preserve it. -/
theorem reachable_no_overlap (s : List Reservation) (h : Reachable s) :
    NoOverlap s := by
  induction h with
  | empty => exact List.Pairwise.nil
  | fcfs hre hres ih =>
    rename_i s0 s2 c rid
    rw [fcfsReserve] at hres
    split_ifs at hres with hfree
    injection hres with hres
    subst hres
    rw [NoOverlap, List.pairwise_append]
    refine ⟨ih, List.pairwise_singleton _ _, ?_⟩
    intro a ha b hb hca hcb
    rcases List.mem_singleton.mp hb with rfl
    exact isFree_spec hfree a ha hca rid ResStatus.confirmed
      ResSource.fcfs
  | alloc batch baseRid hre ih =>
    rw [allocCommit]
    split_ifs with hguard
    · rw [Bool.and_eq_true] at hguard
      rw [NoOverlap, List.pairwise_append]
      refine ⟨ih, ?_, ?_⟩
      · exact (commitBatch_pairwise hguard.1 baseRid).imp
          (fun hc _ _ => hc)
      · intro a ha b hb hca hcb
        rcases mem_commitBatch hb with ⟨c2, hc2, k, hk⟩
        subst hk
        have hfree := List.all_eq_true.mp hguard.2 c2 hc2
        exact isFree_spec hfree a ha hca k ResStatus.confirmed
          ResSource.fairnessAllocation
    · exact ih
  | cancel rid hre ih =>
    rw [cancelReservation, NoOverlap, List.pairwise_map]
    refine ih.imp ?_
    intro a b hab hca hcb
    rw [collides_cancelOne]
    exact hab (cancelOne_confirmed hca) (cancelOne_confirmed hcb)

/-- C1 witness: the state reached by an FCFS commit onto the empty store
followed by a compatible fairness batch satisfies the invariant. -/
theorem reachable_no_overlap_witness :
    NoOverlap (allocCommit
      [Candidate.toRes ⟨5, 1, 40, 540, 60⟩ 1 ResStatus.confirmed
        ResSource.fcfs]
      [⟨6, 1, 40, 600, 60⟩] 2) :=
  reachable_no_overlap _
    (Reachable.alloc [⟨6, 1, 40, 600, 60⟩] 2
      (Reachable.fcfs Reachable.empty rfl))

/-! ## Fairness Allocator (modelled from the spec) -/

/-- A member's input to one contention window: identity, ranked list of
acceptable concrete slots (already expanded by the Preference Cascade
Resolver) and the fairness boost derived from recent history. -/
structure MemberSub where
  memberId : Nat
  ranked : List Nat
  boost : Nat
deriving DecidableEq, Repr

/-- A closed contention-window snapshot: the submissions and the supply of
sellable slots. -/
structure Snapshot where
  members : List MemberSub
  slots : List Nat
deriving DecidableEq, Repr

/-- Modelled from the spec (4.5): the satisfaction weight of giving a
member one choice — geometrically decaying in the rank of the slot in the
member's list, scaled by the member's fairness boost; nothing contributes
zero. -/
def choiceWeight (m : MemberSub) : Option Nat → Nat
  | none => 0
  | some s => m.boost * 2 ^ (32 - min (m.ranked.indexOf s) 32)

/-- Total weighted satisfaction of an assignment, read positionally
against the member list. -/
def assignmentWeight : List MemberSub → List (Option Nat) → Nat
  | [], _ => 0
  | _ :: _, [] => 0
  | m :: ms, o :: os => choiceWeight m o + assignmentWeight ms os

/-- Injection of one choice into a number. -/
def encodeChoice : Option Nat → Nat
  | none => 0
  | some s => s + 1

/-- The stable secondary key of an assignment: an injective numeric
encoding, so equal-weight candidates are ordered reproducibly rather than
by solver visit order. -/
def encodeAssignment : List (Option Nat) → Nat
  | [] => 0
  | o :: t => Nat.pair (encodeChoice o) (encodeAssignment t) + 1

/-- The strict preference of the allocator between two candidate
assignments: strictly larger total weight wins; on equal weight the
smaller stable key wins. -/
def better (ms : List MemberSub) (a b : List (Option Nat)) : Bool :=
  decide (assignmentWeight ms b < assignmentWeight ms a) ||
  (decide (assignmentWeight ms a = assignmentWeight ms b) &&
   decide (encodeAssignment a < encodeAssignment b))

/-- One comparison step of the selection fold. -/
def chooseBetter (ms : List MemberSub) (acc x : List (Option Nat)) :
    List (Option Nat) :=
  if better ms x acc then x else acc

/-- Selection of the best candidate of a list. -/
def pickBest (ms : List MemberSub) :
    List (List (Option Nat)) → Option (List (Option Nat))
  | [] => none
  | c :: rest => some (rest.foldl (chooseBetter ms) c)

/-- Enumeration of every feasible assignment: positionally, each member
receives nothing or one slot of their ranked list still available, and a
sold slot leaves the supply. -/
def enumAssignments : List Nat → List MemberSub → List (List (Option Nat))
  | _, [] => [[]]
  | avail, m :: rest =>
    (enumAssignments avail rest).map (fun t => none :: t) ++
    (m.ranked.filter fun s => avail.contains s).flatMap fun s =>
      (enumAssignments (avail.erase s) rest).map fun t => some s :: t

/-- Modelled from the spec (4.5): the Fairness Allocator — over all
feasible assignments of the snapshot, select the one maximizing total
weighted satisfaction, ties resolved by the stable secondary key. -/
def allocate (snap : Snapshot) : Option (List (Option Nat)) :=
  pickBest snap.members (enumAssignments snap.slots snap.members)

/-- The choice encoding is injective. -/
theorem encodeChoice_injective :
    ∀ {o1 o2 : Option Nat}, encodeChoice o1 = encodeChoice o2 → o1 = o2 := by
  intro o1 o2 h
  cases o1 <;> cases o2 <;> simp [encodeChoice] at h ⊢ <;> omega

/-- The assignment encoding is injective, so it is a usable tie-break
key. -/
theorem encodeAssignment_injective :
    ∀ {l1 l2 : List (Option Nat)},
      encodeAssignment l1 = encodeAssignment l2 → l1 = l2 := by
  intro l1
  induction l1 with
  | nil =>
    intro l2 h
    cases l2 with
    | nil => rfl
    | cons o t => simp [encodeAssignment] at h
  | cons o t ih =>
    intro l2 h
    cases l2 with
    | nil => simp [encodeAssignment] at h
    | cons o2 t2 =>
      simp only [encodeAssignment, Nat.add_right_cancel_iff] at h
      rcases Nat.pair_eq_pair.mp h with ⟨h1, h2⟩
      rw [encodeChoice_injective h1, ih h2]

/-- The preference is irreflexive. -/
theorem better_irrefl (ms : List MemberSub) (a : List (Option Nat)) :
    better ms a a = false := by
  simp [better]

/-- The preference is transitive. -/
theorem better_trans {ms : List MemberSub} {a b c : List (Option Nat)}
    (h1 : better ms a b = true) (h2 : better ms b c = true) :
    better ms a c = true := by
  simp only [better, Bool.or_eq_true, Bool.and_eq_true,
    decide_eq_true_eq] at h1 h2 ⊢
  omega

/-- The preference is asymmetric. -/
theorem better_asymm {ms : List MemberSub} {a b : List (Option Nat)}
    (h : better ms a b = true) : better ms b a = false := by
  cases hba : better ms b a with
  | false => rfl
  | true =>
    exfalso
    simp only [better, Bool.or_eq_true, Bool.and_eq_true,
      decide_eq_true_eq] at h hba
    omega

/-- Two mutually unpreferred assignments are equal: the preference is a
strict total order. -/
theorem better_total {ms : List MemberSub} {a b : List (Option Nat)}
    (h1 : better ms a b = false) (h2 : better ms b a = false) : a = b := by
  have h1n : ¬ better ms a b = true := by simp [h1]
  have h2n : ¬ better ms b a = true := by simp [h2]
  simp only [better, Bool.or_eq_true, Bool.and_eq_true,
    decide_eq_true_eq] at h1n h2n
  have hE : encodeAssignment a = encodeAssignment b := by omega
  exact encodeAssignment_injective hE

/-- Once an assignment cannot beat the accumulator, it cannot beat any
later accumulator of the selection fold. -/
theorem foldl_chooseBetter_notBeats {ms : List MemberSub} :
    ∀ (l : List (List (Option Nat))) (init y : List (Option Nat)),
      better ms y init = false →
      better ms y (l.foldl (chooseBetter ms) init) = false := by
  intro l
  induction l with
  | nil => intro init y h; exact h
  | cons x t ih =>
    intro init y h
    rw [List.foldl_cons]
    apply ih
    rw [chooseBetter]
    split_ifs with hx
    · cases hyx : better ms y x with
      | false => rfl
      | true =>
        exfalso
        have h2 := better_trans hyx hx
        rw [h] at h2
        exact Bool.noConfusion h2
    · exact h

/-- The selection fold returns its start value or a list element. -/
theorem foldl_chooseBetter_mem {ms : List MemberSub} :
    ∀ (l : List (List (Option Nat))) (init : List (Option Nat)),
      l.foldl (chooseBetter ms) init = init ∨
        l.foldl (chooseBetter ms) init ∈ l := by
  intro l
  induction l with
  | nil => intro init; exact Or.inl rfl
  | cons x t ih =>
    intro init
    rw [List.foldl_cons]
    rcases ih (chooseBetter ms init x) with h | h
    · rw [h, chooseBetter]
      split_ifs
      · exact Or.inr (List.mem_cons_self x t)
      · exact Or.inl rfl
    · exact Or.inr (List.mem_cons_of_mem x h)

/-- Nothing among the fold's inputs beats the fold's result. -/
theorem foldl_chooseBetter_max {ms : List MemberSub} :
    ∀ (l : List (List (Option Nat))) (init y : List (Option Nat)),
      (y = init ∨ y ∈ l) →
      better ms y (l.foldl (chooseBetter ms) init) = false := by
  intro l
  induction l with
  | nil =>
    intro init y hy
    rcases hy with rfl | hy
    · exact better_irrefl ms y
    · cases hy
  | cons x t ih =>
    intro init y hy
    rw [List.foldl_cons]
    rcases hy with rfl | hy
    · apply foldl_chooseBetter_notBeats
      rw [chooseBetter]
      split_ifs with hx
      · exact better_asymm hx
      · exact better_irrefl ms y
    · rcases List.mem_cons.mp hy with rfl | hy
      · apply foldl_chooseBetter_notBeats
        rw [chooseBetter]
        split_ifs with hx
        · exact better_irrefl ms y
        · simpa using hx
      · exact ih _ y (Or.inr hy)

/-- Selection does not depend on the candidate order: permuted candidate
lists give the same best element. -/
theorem pickBest_perm {ms : List MemberSub}
    {l1 l2 : List (List (Option Nat))} (hp : l1.Perm l2) :
    pickBest ms l1 = pickBest ms l2 := by
  cases l1 with
  | nil =>
    have h2 := List.Perm.nil_eq hp
    rw [← h2]
  | cons c t =>
    cases l2 with
    | nil =>
      have h2 := List.Perm.nil_eq hp.symm
      cases h2
    | cons c2 t2 =>
      have hr2in : (t2.foldl (chooseBetter ms) c2) ∈ c :: t := by
        apply hp.mem_iff.mpr
        rcases foldl_chooseBetter_mem t2 c2 with h | h
        · rw [h]; exact List.mem_cons_self _ _
        · exact List.mem_cons_of_mem _ h
      have hr1in : (t.foldl (chooseBetter ms) c) ∈ c2 :: t2 := by
        apply hp.mem_iff.mp
        rcases foldl_chooseBetter_mem t c with h | h
        · rw [h]; exact List.mem_cons_self _ _
        · exact List.mem_cons_of_mem _ h
      have h12 : better ms (t2.foldl (chooseBetter ms) c2)
          (t.foldl (chooseBetter ms) c) = false := by
        apply foldl_chooseBetter_max t c
        rcases List.mem_cons.mp hr2in with h | h
        · exact Or.inl h
        · exact Or.inr h
      have h21 : better ms (t.foldl (chooseBetter ms) c)
          (t2.foldl (chooseBetter ms) c2) = false := by
        apply foldl_chooseBetter_max t2 c2
        rcases List.mem_cons.mp hr1in with h | h
        · exact Or.inl h
        · exact Or.inr h
      show some (t.foldl (chooseBetter ms) c) =
        some (t2.foldl (chooseBetter ms) c2)
      exact congrArg some (better_total h21 h12)

/-- C3: the Fairness Allocator is a deterministic function of the closed
snapshot: rerunning it on the identical snapshot yields the identical
assignment, and the selected assignment does not depend on the order in
which the candidate assignments are enumerated or visited — any
permutation of the candidate set yields the same result, because ties are
resolved by the stable injective secondary key, not by solver order. -/
theorem allocator_deterministic (snap : Snapshot)
    (l : List (List (Option Nat)))
    (hp : l.Perm (enumAssignments snap.slots snap.members)) :
    pickBest snap.members l = allocate snap :=
  pickBest_perm hp

/-- C3 witness: visiting the candidates of a concrete one-member snapshot
in reverse order selects the same assignment the allocator produces. -/
theorem allocator_deterministic_witness :
    pickBest [⟨1, [9], 2⟩]
      ((enumAssignments [9] [⟨1, [9], 2⟩]).reverse) =
      allocate ⟨[⟨1, [9], 2⟩], [9]⟩ :=
  allocator_deterministic ⟨[⟨1, [9], 2⟩], [9]⟩ _ (List.reverse_perm _)

end CourtBook
